import Mathlib

/-!
# Verification of the channel-listing scraper core

Shallow embedding of the scraping orchestration core of the
`scrape-channel-listings` repository, together with proofs settling the
specification claims about it.

The repository contains two generations of the scraper utility module:

* `src/src/utils/scraper.ts` (the current file) — namespace `Scraper` below.
  Its `processData` takes raw data and an overrides map (no exclusion
  predicate), and its `runScraper` navigates once and wraps only the
  extractor call in `retry`.
* `src/unnamed/part_000` (an earlier revision of the same module) —
  namespace `Scraper0` below.  Its `processData` additionally takes an
  `excludeChannels` predicate, and its `runScraper` wraps the whole
  page-setup-plus-extraction closure in `retry`.

Strings are modelled as Lean `String`s (lists of characters); the JS
regular-expression replace calls are modelled by an explicit left-to-right
scanner that tries the regex alternatives in their source order at each
position, exactly mirroring JS `String.replace` global semantics (leftmost
position, first matching alternative, greedy quantifiers, no empty
matches — every alternative of the source regexes consumes at least one
character).
-/

namespace ChannelScrape

/-- `Channel` from `scraper.ts`: a channel number and a standardized name. -/
structure Channel where
  number : String
  name : String
deriving DecidableEq, Repr

/-- `Partial<Channel>`: both fields optional, as produced by extractors
(invalid rows come back as `{}`, i.e. both fields `none`). -/
structure RawChannel where
  number : Option String
  name : Option String
deriving DecidableEq, Repr

/-- JS falsiness of an optional string field: `!item?.name` is true when the
field is `undefined` or the empty string. -/
def strFalsy : Option String → Bool
  | none => true
  | some s => s = ""

/-- JS `a || b` for a record lookup result and a string default:
`overrides[key] || n` falls back to `n` when the lookup is `undefined` or
returns the empty string (empty strings are falsy in JS). -/
def jsOrString : Option String → String → String
  | none, n => n
  | some v, n => if v = "" then n else v

/-- JS regex `\w` (ASCII word character). -/
def isWordChar (c : Char) : Bool := c.isAlphanum || c = '_'

/-- JS regex `\s`, restricted to the ASCII whitespace characters (the
Unicode space classes never occur in the data the claims are about). -/
def isSpaceChar (c : Char) : Bool :=
  c = ' ' || c = '\t' || c = '\n' || c = '\r' || c = '\x0b' || c = '\x0c'

/-- Length of a match of the regex alternative `\([^)]*\)` at the head of
the input: an opening parenthesis, the greedy run of non-`)` characters,
and a closing parenthesis (fails when no `)` follows). -/
def parenLen : List Char → Option Nat
  | '(' :: rest =>
    let k := (rest.takeWhile (fun c => c ≠ ')')).length
    if k < rest.length then some (k + 2) else none
  | _ => none

/-- Length of a match of the literal-apostrophe alternative (the source
regex lists the apostrophe alternative twice; both are ASCII `'`). -/
def quoteLen : List Char → Option Nat
  | c :: _ => if c = '\'' then some 1 else none
  | _ => none

/-- Length of a match of `[^\w\s&+']` at the head of the input. -/
def otherLen : List Char → Option Nat
  | c :: _ =>
    if !isWordChar c && !isSpaceChar c && c ≠ '&' && c ≠ '+' && c ≠ '\'' then
      some 1
    else none
  | _ => none

/-- Length of a match of `(?:\s+)` at the head of the input (greedy). -/
def spacesLen (cs : List Char) : Option Nat :=
  let k := (cs.takeWhile isSpaceChar).length
  if k = 0 then none else some k

/-- Length of a match of `(?:\s*&\s*)` at the head of the input: a greedy
(possibly empty) whitespace run, `&`, and a greedy trailing whitespace
run. -/
def ampLen (cs : List Char) : Option Nat :=
  let k := (cs.takeWhile isSpaceChar).length
  match cs.drop k with
  | '&' :: rest => some (k + 1 + (rest.takeWhile isSpaceChar).length)
  | _ => none

/-- Length of a match of `\s+\+1` at the head of the input. -/
def plusOneLen (cs : List Char) : Option Nat :=
  let k := (cs.takeWhile isSpaceChar).length
  if k = 0 then none
  else
    match cs.drop k with
    | '+' :: '1' :: _ => some (k + 2)
    | _ => none

/-- Does the match contain the substring `+1` (JS `match.includes('+1')`)? -/
def hasPlusOne : List Char → Bool
  | '+' :: '1' :: _ => true
  | _ :: rest => hasPlusOne rest
  | [] => false

/-- Alternation of `src/src/utils/scraper.ts`'s normalization regex
`/(?:\([^)]*\)|'|'|[^\w\s&+']|(?:\s+)|(?:\s*&\s*)|\s+\+1)/g`, alternatives
tried in source order. -/
def altLenSrc (cs : List Char) : Option Nat :=
  parenLen cs <|> quoteLen cs <|> otherLen cs <|> spacesLen cs <|>
    ampLen cs <|> plusOneLen cs

/-- Alternation of `part_000`'s normalization regex
`/(?:\([^)]*\)|'|'|[^\w\s&+']|(?:\s+)|(?:\s*&\s*))/g`. -/
def altLenP0 (cs : List Char) : Option Nat :=
  parenLen cs <|> quoteLen cs <|> otherLen cs <|> spacesLen cs <|> ampLen cs

/-- Replacer callback of `src/src/utils/scraper.ts` (conditions in source
order; note the first condition also fires on a parenthetical match that
contains `&`). -/
def replacerSrc (m : List Char) : List Char :=
  if m = ['&'] || m.contains '&' then ['&']
  else if m = ['\''] then ['\'']
  else if m.head? = some '(' then []
  else if hasPlusOne m then ['+', '1']
  else if m = [' '] then [' ']
  else []

/-- Replacer callback of `part_000` (the `&` branch inserts surrounding
spaces, and there is no `+1` branch). -/
def replacerP0 (m : List Char) : List Char :=
  if m = ['&'] then [' ', '&', ' ']
  else if m = ['\''] then ['\'']
  else if m.head? = some '(' then []
  else if m = [' '] then [' ']
  else []

/-- Global-replace scanner: at each position try the alternation; on a match
of length `n ≥ 1`, emit the replacement of the matched characters and resume
after them, otherwise copy one character.  Fuelled by the input length so
that the definition is structural (each step consumes at least one
character and one unit of fuel). -/
def scanReplaceF (alt : List Char → Option Nat) (rep : List Char → List Char) :
    Nat → List Char → List Char
  | _, [] => []
  | 0, l => l
  | fuel + 1, c :: cs =>
    match alt (c :: cs) with
    | some (n + 1) =>
      rep ((c :: cs).take (n + 1)) ++ scanReplaceF alt rep fuel ((c :: cs).drop (n + 1))
    | _ => c :: scanReplaceF alt rep fuel cs

/-- Global replace over a whole character list. -/
def scanReplace (alt : List Char → Option Nat) (rep : List Char → List Char)
    (l : List Char) : List Char :=
  scanReplaceF alt rep l.length l

/-- `.replace(/\s+\+1/g, '+1')`: each whitespace run immediately followed by
`+1` collapses to `+1`. -/
def collapseWsPlusOneF : Nat → List Char → List Char
  | _, [] => []
  | 0, l => l
  | fuel + 1, c :: cs =>
    if isSpaceChar c then
      let k := ((c :: cs).takeWhile isSpaceChar).length
      match (c :: cs).drop k with
      | '+' :: '1' :: rest => '+' :: '1' :: collapseWsPlusOneF fuel rest
      | _ => c :: collapseWsPlusOneF fuel cs
    else c :: collapseWsPlusOneF fuel cs

def collapseWsPlusOne (l : List Char) : List Char :=
  collapseWsPlusOneF l.length l

/-- `.replace(/\s+/g, ' ')`: each whitespace run collapses to one space. -/
def collapseWsF : Nat → List Char → List Char
  | _, [] => []
  | 0, l => l
  | fuel + 1, c :: cs =>
    if isSpaceChar c then ' ' :: collapseWsF fuel (cs.dropWhile isSpaceChar)
    else c :: collapseWsF fuel cs

def collapseWs (l : List Char) : List Char :=
  collapseWsF l.length l

/-- JS `String.prototype.trim`: strip whitespace from both ends. -/
def trimChars (l : List Char) : List Char :=
  ((l.dropWhile isSpaceChar).reverse.dropWhile isSpaceChar).reverse

namespace Scraper

/-- `normalizeChannelName` of `src/src/utils/scraper.ts`: uppercase, the
regex replace, then `.replace(/\s+\+1/g,'+1')`, `.replace(/\s+/g,' ')` and
`.trim()`. -/
def normalizeChannelName (name : String) : String :=
  String.mk (trimChars (collapseWs (collapseWsPlusOne
    (scanReplace altLenSrc replacerSrc (name.toList.map Char.toUpper)))))

/-- The body of `processData`'s `.map` arrow in `src/src/utils/scraper.ts`
(returning `none` models returning `null`; the trailing `.filter` is the
`filterMap`). -/
def processItem (overrides : List (String × String)) (item : RawChannel) :
    Option Channel :=
  if strFalsy item.name || strFalsy item.number then none
  else
    let normalizedName := normalizeChannelName (item.name.getD "")
    let finalName := jsOrString (overrides.lookup normalizedName) normalizedName
    some { number := item.number.getD "", name := finalName }

/-- `processData` of `src/src/utils/scraper.ts` (no exclusion predicate). -/
def processData (data : List RawChannel) (overrides : List (String × String)) :
    List Channel :=
  data.filterMap (processItem overrides)

end Scraper

namespace Scraper0

/-- `normalizeChannelName` of `part_000`: uppercase, the regex replace, then
`.trim()` only. -/
def normalizeChannelName (name : String) : String :=
  String.mk (trimChars
    (scanReplace altLenP0 replacerP0 (name.toList.map Char.toUpper)))

/-- The body of `processData`'s `.map` arrow in `part_000`: drop on falsy
fields, normalize, apply overrides, then drop when `excludeChannels` holds
of the finished channel. -/
def processItem (overrides : List (String × String))
    (excludeChannels : Channel → Bool) (item : RawChannel) : Option Channel :=
  if strFalsy item.name || strFalsy item.number then none
  else
    let normalizedName := normalizeChannelName (item.name.getD "")
    let finalName := jsOrString (overrides.lookup normalizedName) normalizedName
    let channel : Channel := { number := item.number.getD "", name := finalName }
    if excludeChannels channel then none else some channel

/-- `processData` of `part_000` (raw data, overrides, exclusion predicate) —
the three-input normalization pipeline of the specification. -/
def processData (data : List RawChannel) (overrides : List (String × String))
    (excludeChannels : Channel → Bool) : List Channel :=
  data.filterMap (processItem overrides excludeChannels)

end Scraper0

/-- `Channel[]` used where `Partial<Channel>[]` is expected (feeding a
pipeline output back into the pipeline): both fields present. -/
def Channel.toRaw (c : Channel) : RawChannel :=
  { number := some c.number, name := some c.name }

/-- Error carried out of `retry`: either an error value thrown by the
retried function (re-thrown unchanged — the constructor is only the
embedding's injection into the common error type) or the fresh generic
`Error('Retry failed')` thrown when the loop body never runs. -/
inductive RetryError (ε : Type) where
  | fnError (e : ε)
  | retryFailed
deriving DecidableEq, Repr

/-- Observable behaviour of one `retry` call: the returned value or thrown
error, how many times the wrapped function was invoked, and the backoff
delays (in ms) that were waited between attempts, in order. -/
structure RetryTrace (ε α : Type) where
  result : Except (RetryError ε) α
  calls : Nat
  delays : List Nat
deriving Repr

/-- The `for (let i = 0; i < retries; i++)` loop of `retry` in
`scraper.ts`/`part_000` (both revisions are identical): attempt `fn`; on
success return; on failure, if attempts remain wait `delay * 2^i` and
continue, otherwise re-throw the caught error.  The fallible asynchronous
`fn` is modelled as a function from the invocation index to its outcome.
`i` is the current loop index and `remaining` the number of loop iterations
left (`retries - i`); `remaining = 0` corresponds to falling out of the
loop, which reaches `throw new Error('Retry failed')`. -/
def retryLoop (fn : Nat → Except ε α) (delay : Nat) :
    Nat → Nat → RetryTrace ε α
  | _, 0 => ⟨.error .retryFailed, 0, []⟩
  | i, r + 1 =>
    match fn i with
    | .ok a => ⟨.ok a, 1, []⟩
    | .error e =>
      if r = 0 then ⟨.error (.fnError e), 1, []⟩
      else
        let t := retryLoop fn delay (i + 1) r
        ⟨t.result, t.calls + 1, delay * 2 ^ i :: t.delays⟩

/-- `retry(fn, retries, delay)` with a non-negative attempt count. -/
def retry (fn : Nat → Except ε α) (retries : Nat) (delay : Nat) :
    RetryTrace ε α :=
  retryLoop fn delay 0 retries

/-- `retry` as callable from JS with any integer attempt count: the loop
`for (i = 0; i < retries; i++)` runs `max retries 0` iterations. -/
def retryJS (fn : Nat → Except ε α) (retries : Int) (delay : Nat) :
    RetryTrace ε α :=
  retry fn retries.toNat delay

namespace Scraper

/-- `runScraper` of `src/src/utils/scraper.ts`, with navigation and
extraction modelled as invocation-indexed fallible operations: `setupPage`
(page creation + navigation) runs once, *outside* `retry`; only the
`config.scrapeFunction(page)` call is wrapped in `retry`; `processData`
runs on the retrieved data afterwards.  Browser setup/teardown and file
output are outside the claims and omitted. -/
def runScraper (nav : Nat → Except ε Unit) (ext : Nat → Except ε (List RawChannel))
    (retries delay : Nat) (overrides : List (String × String)) :
    Except (RetryError ε) (List Channel) :=
  match nav 0 with
  | .error e => .error (.fnError e)
  | .ok _ =>
    (retry ext retries delay).result.map (fun data => processData data overrides)

end Scraper

namespace Scraper0

/-- `runScraper` of `part_000`: the whole `scrapePage` closure — page setup
and navigation, extraction, and `processData` — is wrapped in `retry`, so
attempt `i` re-runs navigation and extraction from scratch. -/
def runScraper (nav : Nat → Except ε Unit) (ext : Nat → Except ε (List RawChannel))
    (retries delay : Nat) (overrides : List (String × String))
    (excludeChannels : Channel → Bool) : Except (RetryError ε) (List Channel) :=
  (retry (fun i =>
      match nav i with
      | .error e => .error e
      | .ok _ =>
        match ext i with
        | .error e => .error e
        | .ok data => .ok (processData data overrides excludeChannels))
    retries delay).result

end Scraper0

/-- `ScraperResult` of `src/src/index.ts` / `part_001`: per-task outcome
with metrics.  Optional fields are `Option`s (absent on the branch that
does not set them). -/
structure ScraperResult where
  name : String
  success : Bool
  duration : Nat
  channelCount : Option Nat
  error : Option String
  channels : Option (List Channel)
deriving DecidableEq, Repr

/-- A provider task as the scheduler sees it, with the timing model made
explicit: `duration` is the task's own elapsed time (the `Date.now()`
difference measured around its `runScraper` call) and `outcome` the result
of that call (errors carry their message). -/
structure TaskSpec where
  name : String
  duration : Nat
  outcome : Except String (List Channel)

/-- `executeScraper`-style task body shared by `src/src/index.ts` (the
inline arrow in `scrapeAllProviders`) and `part_001`'s `executeScraper`:
run the scraper, measure the elapsed time, and convert success/failure into
a `ScraperResult` (the `catch` branch sets no `channelCount` and no
`channels`). -/
def executeTask (t : TaskSpec) : ScraperResult :=
  match t.outcome with
  | .ok chs =>
    { name := t.name, success := true, duration := t.duration,
      channelCount := some chs.length, error := none, channels := some chs }
  | .error e =>
    { name := t.name, success := false, duration := t.duration,
      channelCount := none, error := some e, channels := none }

/-- Fixed-size batching: `for (let i = 0; i < n; i += k) slice(i, i + k)`
(equivalently `part_001`'s refill-then-await-all queue loop).  Fuelled by
the list length so the definition is structural; each step consumes at
least one element. -/
def chunksOfF (k : Nat) : Nat → List α → List (List α)
  | _, [] => []
  | 0, l => [l]
  | fuel + 1, x :: xs => (x :: xs.take (k - 1)) :: chunksOfF k fuel (xs.drop (k - 1))

def chunksOf (k : Nat) (l : List α) : List (List α) :=
  chunksOfF k l.length l

namespace IndexTs

/-- The per-wave result lists of `scrapeAllProviders` in
`src/src/index.ts`, concatenated in wave order (`results.push(...batch)`)
— `Promise.all` hands each wave's results back in submission order. -/
def scrapeAllResults (tasks : List TaskSpec) (k : Nat) : List ScraperResult :=
  ((chunksOf k tasks).map (fun b => b.map executeTask)).flatten

/-- Wall-clock time of one wave under the cooperative timing model: the
tasks of a wave start together and the wave completes when its slowest
task does. -/
def waveWall (b : List TaskSpec) : Nat :=
  (b.map (·.duration)).foldr Nat.max 0

/-- `Date.now() - startTime` at the end of `scrapeAllProviders`: waves run
back to back, so the run's wall clock is the sum of the waves' wall
clocks. -/
def wallClock (tasks : List TaskSpec) (k : Nat) : Nat :=
  ((chunksOf k tasks).map waveWall).sum

/-- `results.reduce((sum, r) => sum + (r.channelCount || 0), 0)` of
`src/src/index.ts` (over *all* results). -/
def totalChannelsOf (results : List ScraperResult) : Nat :=
  results.foldl (fun s r => s + r.channelCount.getD 0) 0

/-- The summary object of `src/src/index.ts` (the `writeFiles` branch).
`successRate` is a percentage string computed with floating-point
`toFixed`; no claim is about it and it is not modelled. -/
structure ScrapingSummary where
  results : List ScraperResult
  totalDuration : Nat
  totalChannels : Nat
  failedScrapers : List ScraperResult
deriving Repr

/-- `scrapeAllProviders` of `src/src/index.ts`, summary branch:
`totalDuration` is `Date.now() - startTime` — the run's wall clock — not an
aggregate of the per-task durations. -/
def scrapeAllProviders (tasks : List TaskSpec) (k : Nat) : ScrapingSummary :=
  let results := scrapeAllResults tasks k
  { results := results
    totalDuration := wallClock tasks k
    totalChannels := totalChannelsOf results
    failedScrapers := results.filter (fun r => !r.success) }

/-- Submission-indexed completion events: `enumF n l` pairs the elements of
`l` with their positions starting at `n`. -/
def enumF (n : Nat) : List α → List (Nat × α)
  | [] => []
  | x :: xs => (n, x) :: enumF (n + 1) xs

/-- Find the event carrying submission index `i`. -/
def lookupIdx (i : Nat) : List (Nat × α) → Option α
  | [] => none
  | (j, a) :: rest => if j = i then some a else lookupIdx i rest

/-- `Promise.all`'s reassembly guarantee: regardless of the order in which
the events arrive, the resolved array has the result with submission index
`i` at position `i`. -/
def promiseAll (events : List (Nat × α)) : List α :=
  (List.range events.length).filterMap (fun i => lookupIdx i events)

/-- The wave scheduler with the completion order left abstract: `sched b`
is the finish-ordered list of `(submission index, result)` events of wave
`b`, and each wave's results are reassembled by `Promise.all` before the
next wave starts. -/
def scrapeAllWith (k : Nat) (sched : List TaskSpec → List (Nat × ScraperResult))
    (tasks : List TaskSpec) : List ScraperResult :=
  ((chunksOf k tasks).map (fun b => promiseAll (sched b))).flatten

end IndexTs

namespace Part001

/-- The summary of `part_001`'s `scrapeAllProviders` (`writeFiles` branch),
as a pure function of the collected results: here `totalDuration` is
`results.reduce((sum, r) => sum + r.duration, 0)` and `totalChannels` sums
over `successful` only.  `successRate` is the string `"s/t"`. -/
structure ScrapingSummary where
  results : List ScraperResult
  totalDuration : Nat
  successRate : String
  totalChannels : Nat
  failedScrapers : List ScraperResult
deriving Repr

def summarize (results : List ScraperResult) : ScrapingSummary :=
  let successful := results.filter (fun r => r.success)
  let failed := results.filter (fun r => !r.success)
  { results := results
    totalDuration := results.foldl (fun s r => s + r.duration) 0
    successRate := toString successful.length ++ "/" ++ toString results.length
    totalChannels := successful.foldl (fun s r => s + (r.channelCount.getD 0)) 0
    failedScrapers := failed }

end Part001

/-! ## Helper lemmas -/

theorem chunksOfF_flatten (k : Nat) :
    ∀ (fuel : Nat) (l : List α), l.length ≤ fuel → (chunksOfF k fuel l).flatten = l := by
  intro fuel
  induction fuel with
  | zero =>
    intro l hl
    match l with
    | [] => rfl
    | x :: xs => simp at hl
  | succ fuel ih =>
    intro l hl
    match l with
    | [] => rfl
    | x :: xs =>
      simp only [chunksOfF, List.flatten_cons]
      rw [ih (xs.drop (k - 1)) (by simp at hl ⊢; omega)]
      simp [List.take_append_drop]

theorem chunksOf_flatten (k : Nat) (l : List α) : (chunksOf k l).flatten = l :=
  chunksOfF_flatten k l.length l le_rfl

theorem chunksOf_one (l : List α) : chunksOf 1 l = l.map (fun x => [x]) := by
  suffices h : ∀ (fuel : Nat) (l : List α), l.length ≤ fuel →
      chunksOfF 1 fuel l = l.map (fun x => [x]) from h l.length l le_rfl
  intro fuel
  induction fuel with
  | zero =>
    intro l hl
    match l with
    | [] => rfl
    | x :: xs => simp at hl
  | succ fuel ih =>
    intro l hl
    match l with
    | [] => rfl
    | x :: xs =>
      simp only [chunksOfF, List.map_cons, Nat.sub_self, List.take_zero, List.drop_zero]
      rw [ih xs (by simp at hl; omega)]

theorem foldl_add_eq_sum (f : β → Nat) (l : List β) :
    ∀ n : Nat, l.foldl (fun s r => s + f r) n = n + (l.map f).sum := by
  induction l with
  | nil => simp
  | cons x xs ih =>
    intro n
    simp only [List.foldl_cons, List.map_cons, List.sum_cons, ih]
    omega

theorem foldr_max_le_sum (l : List Nat) : l.foldr Nat.max 0 ≤ l.sum := by
  induction l with
  | nil => simp
  | cons x xs ih =>
    simp only [List.foldr_cons, List.sum_cons]
    exact Nat.max_le.mpr ⟨Nat.le_add_right _ _, le_trans ih (Nat.le_add_left _ _)⟩

/-- Structural fact about the `part_000` pipeline: every emitted channel
took its `number` verbatim from a raw record whose `number` field was
neither missing nor empty, and survived the exclusion filter. -/
theorem mem_processData (data : List RawChannel) (overrides : List (String × String))
    (exclude : Channel → Bool) (c : Channel)
    (hc : c ∈ Scraper0.processData data overrides exclude) :
    c.number ≠ "" ∧ exclude c = false := by
  obtain ⟨item, hitem, hsome⟩ :=
    List.mem_filterMap.mp (by simpa [Scraper0.processData] using hc)
  simp only [Scraper0.processItem] at hsome
  by_cases hfal : (strFalsy item.name || strFalsy item.number) = true
  · simp [hfal] at hsome
  · rw [if_neg hfal] at hsome
    by_cases hexc : exclude ⟨item.number.getD "",
        jsOrString (overrides.lookup (Scraper0.normalizeChannelName (item.name.getD "")))
          (Scraper0.normalizeChannelName (item.name.getD ""))⟩ = true
    · rw [if_pos hexc] at hsome
      cases hsome
    · rw [if_neg hexc] at hsome
      have hceq := (Option.some.inj hsome).symm
      subst hceq
      refine ⟨?_, Bool.not_eq_true _ ▸ by simpa using hexc⟩
      simp only [strFalsy, Bool.or_eq_true] at hfal
      match item with
      | ⟨none, _⟩ => exact absurd (Or.inr rfl) hfal
      | ⟨some s, _⟩ =>
        intro hs
        exact hfal (Or.inr (by simpa using hs))

/-- One record of the `part_000` pipeline, with the exclusion predicate
factored out: excluding is exactly post-filtering the record built with the
trivial predicate. -/
theorem processItem_exclude (overrides : List (String × String))
    (exclude : Channel → Bool) (item : RawChannel) :
    Scraper0.processItem overrides exclude item =
      match Scraper0.processItem overrides (fun _ => false) item with
      | none => none
      | some ch => if exclude ch then none else some ch := by
  simp only [Scraper0.processItem]
  by_cases hfal : (strFalsy item.name || strFalsy item.number) = true
  · simp [hfal]
  · simp only [if_neg hfal]
    rfl

/-- Feeding a list of channels that are fixed points of the
normalize-plus-override step (and are neither empty-named nor excluded)
back through the `part_000` pipeline reproduces the list. -/
theorem processData_map_toRaw (overrides : List (String × String))
    (exclude : Channel → Bool) :
    ∀ l : List Channel,
      (∀ c ∈ l, c.number ≠ "" ∧ c.name ≠ "" ∧
        jsOrString (overrides.lookup (Scraper0.normalizeChannelName c.name))
          (Scraper0.normalizeChannelName c.name) = c.name ∧ exclude c = false) →
      Scraper0.processData (l.map Channel.toRaw) overrides exclude = l := by
  intro l
  induction l with
  | nil => intro _; rfl
  | cons c cs ih =>
    intro h
    obtain ⟨hnum, hname, hfix, hexc⟩ := h c (List.mem_cons_self c cs)
    have hitem : Scraper0.processItem overrides exclude c.toRaw = some c := by
      simp only [Scraper0.processItem, Channel.toRaw, strFalsy]
      rw [if_neg (by simp [hname, hnum])]
      simp only [Option.getD_some]
      rw [hfix, hexc]
      simp
    simp only [List.map_cons, Scraper0.processData, List.filterMap_cons, hitem]
    have := ih (fun c hc => h c (List.mem_cons_of_mem _ hc))
    simp only [Scraper0.processData] at this
    rw [this]

theorem executeTask_duration (t : TaskSpec) : (executeTask t).duration = t.duration := by
  match t with
  | ⟨n, d, .ok chs⟩ => rfl
  | ⟨n, d, .error e⟩ => rfl

theorem executeTask_failed_channelCount (t : TaskSpec)
    (h : (executeTask t).success = false) : (executeTask t).channelCount = none := by
  match t with
  | ⟨n, d, .ok chs⟩ => cases h
  | ⟨n, d, .error e⟩ => rfl

theorem mem_scrapeAllResults (tasks : List TaskSpec) (k : Nat) (r : ScraperResult)
    (hr : r ∈ IndexTs.scrapeAllResults tasks k) : ∃ t, r = executeTask t := by
  simp only [IndexTs.scrapeAllResults] at hr
  obtain ⟨b, hb, hrb⟩ := List.mem_flatten.mp hr
  obtain ⟨batch, hbatch, rfl⟩ := List.mem_map.mp hb
  obtain ⟨t, _, rfl⟩ := List.mem_map.mp hrb
  exact ⟨t, rfl⟩

/-- Summing a per-result quantity where failures contribute `none` equals
summing over the successes only. -/
theorem sum_getD_filter_success (l : List ScraperResult)
    (h : ∀ r ∈ l, r.success = false → r.channelCount = none) :
    (l.map (fun r => r.channelCount.getD 0)).sum =
      ((l.filter (fun r => r.success)).map (fun r => r.channelCount.getD 0)).sum := by
  induction l with
  | nil => rfl
  | cons r rs ih =>
    have hrs := ih (fun r hr => h r (List.mem_cons_of_mem _ hr))
    by_cases hs : r.success = true
    · rw [List.filter_cons_of_pos (by simpa using hs)]
      simp only [List.map_cons, List.sum_cons, hrs]
    · rw [List.filter_cons_of_neg (by simpa using hs)]
      have : r.channelCount = none :=
        h r (List.mem_cons_self r rs) (Bool.not_eq_true _ ▸ by simpa using hs)
      simp only [List.map_cons, List.sum_cons, this, Option.getD_none, hrs, Nat.zero_add]

theorem lookupIdx_enumF (l : List α) :
    ∀ (s i : Nat), IndexTs.lookupIdx i (IndexTs.enumF s l) =
      if s ≤ i then l[i - s]? else none := by
  induction l with
  | nil => intro s i; simp [IndexTs.enumF, IndexTs.lookupIdx]
  | cons x xs ih =>
    intro s i
    simp only [IndexTs.enumF, IndexTs.lookupIdx]
    by_cases hsi : s = i
    · subst hsi
      simp
    · rw [if_neg hsi, ih (s + 1) i]
      by_cases hle : s ≤ i
      · have h1 : s + 1 ≤ i := by omega
        rw [if_pos hle, if_pos h1]
        have h2 : i - s = (i - (s + 1)) + 1 := by omega
        rw [h2, List.getElem?_cons_succ]
      · rw [if_neg hle, if_neg (by omega)]

theorem enumF_length (l : List α) : ∀ s, (IndexTs.enumF s l).length = l.length := by
  induction l with
  | nil => intro s; rfl
  | cons x xs ih => intro s; simp [IndexTs.enumF, ih]

theorem enumF_fst_ge (l : List α) :
    ∀ (s : Nat) (p : Nat × α), p ∈ IndexTs.enumF s l → s ≤ p.1 := by
  induction l with
  | nil => intro s p hp; simp [IndexTs.enumF] at hp
  | cons x xs ih =>
    intro s p hp
    simp only [IndexTs.enumF, List.mem_cons] at hp
    rcases hp with h | h
    · subst h; exact le_rfl
    · exact le_trans (by omega) (ih (s + 1) p h)

theorem enumF_keys_nodup (l : List α) :
    ∀ (s : Nat), ((IndexTs.enumF s l).map Prod.fst).Nodup := by
  induction l with
  | nil => intro s; simp [IndexTs.enumF]
  | cons x xs ih =>
    intro s
    simp only [IndexTs.enumF, List.map_cons, List.nodup_cons]
    refine ⟨fun hmem => ?_, ih (s + 1)⟩
    obtain ⟨p, hp, hfst⟩ := List.mem_map.mp hmem
    have := enumF_fst_ge xs (s + 1) p hp
    omega

/-- Looking an index up in a list of `(index, value)` events is invariant
under permutation of the events as long as the indices are distinct. -/
theorem lookupIdx_perm {l₁ l₂ : List (Nat × α)} (h : l₁.Perm l₂)
    (nd : (l₁.map Prod.fst).Nodup) (i : Nat) :
    IndexTs.lookupIdx i l₁ = IndexTs.lookupIdx i l₂ := by
  induction h with
  | nil => rfl
  | cons p h ih =>
    simp only [IndexTs.lookupIdx]
    by_cases hp : p.1 = i
    · simp [hp]
    · simp only [List.map_cons, List.nodup_cons] at nd
      simp [hp, ih nd.2]
  | swap p q rest =>
    simp only [List.map_cons, List.nodup_cons, List.mem_cons, List.mem_map] at nd
    have hqp : q.1 ≠ p.1 := fun hqp => nd.1 (Or.inl hqp)
    simp only [IndexTs.lookupIdx]
    by_cases hq : q.1 = i
    · rw [if_pos hq, if_neg (by omega), if_pos hq]
    · by_cases hp : p.1 = i <;> simp [hp, hq]
  | trans h₁ h₂ ih₁ ih₂ =>
    have nd₂ := (h₁.map Prod.fst).nodup nd
    rw [ih₁ nd, ih₂ nd₂]

theorem filterMap_range_getElem (l : List α) :
    (List.range l.length).filterMap (fun i => l[i]?) = l := by
  induction l with
  | nil => rfl
  | cons x xs ih =>
    rw [List.length_cons, List.range_succ_eq_map, List.filterMap_cons,
      List.filterMap_map]
    simp only [List.getElem?_cons_zero, Function.comp_def, List.getElem?_cons_succ]
    rw [ih]

/-- `Promise.all` reassembles any completion-ordered permutation of a
wave's indexed results back into submission order. -/
theorem promiseAll_perm (results : List α) (events : List (Nat × α))
    (h : events.Perm (IndexTs.enumF 0 results)) :
    IndexTs.promiseAll events = results := by
  have hlen : events.length = results.length := by
    rw [h.length_eq, enumF_length]
  have hnd : (events.map Prod.fst).Nodup :=
    ((h.symm.map Prod.fst).nodup) (enumF_keys_nodup results 0)
  unfold IndexTs.promiseAll
  rw [hlen]
  have hlook : ∀ i, IndexTs.lookupIdx i events = results[i]? := fun i => by
    rw [lookupIdx_perm h hnd i, lookupIdx_enumF results 0 i]
    simp
  calc (List.range results.length).filterMap (fun i => IndexTs.lookupIdx i events)
      = (List.range results.length).filterMap (fun i => results[i]?) := by
        refine List.filterMap_congr (fun i _ => hlook i)
    _ = results := filterMap_range_getElem results

/-- `retry`: the wrapped function fails on attempts `0, …, m-1`, succeeds on
attempt `m`, and `m < retries`: `retry` returns the success value after
`m + 1` invocations, having waited `delay * 2^j` before retry `j`. -/
theorem retryLoop_succeeds (fn : Nat → Except ε α) (delay : Nat) (v : α) :
    ∀ (m i r : Nat) (e : Nat → ε), m < r →
      (∀ j, j < m → fn (i + j) = .error (e j)) → fn (i + m) = .ok v →
      retryLoop fn delay i r =
        ⟨.ok v, m + 1, (List.range m).map (fun j => delay * 2 ^ (i + j))⟩ := by
  intro m
  induction m with
  | zero =>
    intro i r e hr hfail hsucc
    match r, hr with
    | r' + 1, _ =>
      simp only [retryLoop]
      rw [show i + 0 = i from rfl] at hsucc
      rw [hsucc]
      simp
  | succ m ih =>
    intro i r e hr hfail hsucc
    match r, hr with
    | r' + 1, _ =>
      have hr' : m < r' := by omega
      have h0 := hfail 0 (by omega)
      rw [Nat.add_zero] at h0
      have hne : ¬ r' = 0 := by omega
      have hd : (List.range (m + 1)).map (fun j => delay * 2 ^ (i + j))
          = delay * 2 ^ i :: (List.range m).map (fun j => delay * 2 ^ (i + 1 + j)) := by
        rw [List.range_succ_eq_map, List.map_cons, List.map_map]
        refine congrArg₂ List.cons (by rw [Nat.add_zero]) ?_
        refine List.map_congr_left (fun j _ => ?_)
        simp only [Function.comp_apply]
        rw [show i + (j + 1) = i + 1 + j by omega]
      simp only [retryLoop, h0, if_neg hne]
      rw [ih (i + 1) r' (fun j => e (j + 1)) hr'
        (fun j hj => by rw [show i + 1 + j = i + (j + 1) by omega]; exact hfail (j + 1) (by omega))
        (by rw [show i + 1 + m = i + (m + 1) by omega]; exact hsucc), hd]

/-- `retry`: the wrapped function fails on every one of the `r ≥ 1`
attempts: `retry` re-throws the error of the last attempt, unchanged. -/
theorem retryLoop_exhausts (fn : Nat → Except ε α) (delay : Nat) :
    ∀ (r i : Nat) (e : Nat → ε), 1 ≤ r →
      (∀ j, j < r → fn (i + j) = .error (e j)) →
      retryLoop fn delay i r =
        ⟨.error (.fnError (e (r - 1))), r,
          (List.range (r - 1)).map (fun j => delay * 2 ^ (i + j))⟩ := by
  intro r
  induction r with
  | zero => intro i e hr; omega
  | succ r' ih =>
    intro i e hr hfail
    have h0 := hfail 0 (by omega)
    rw [Nat.add_zero] at h0
    by_cases hz : r' = 0
    · subst hz
      simp [retryLoop, h0]
    · have hd : (List.range (r' + 1 - 1)).map (fun j => delay * 2 ^ (i + j))
          = delay * 2 ^ i :: (List.range (r' - 1)).map (fun j => delay * 2 ^ (i + 1 + j)) := by
        rw [show r' + 1 - 1 = (r' - 1) + 1 by omega]
        rw [List.range_succ_eq_map, List.map_cons, List.map_map]
        refine congrArg₂ List.cons (by rw [Nat.add_zero]) ?_
        refine List.map_congr_left (fun j _ => ?_)
        simp only [Function.comp_apply]
        rw [show i + (j + 1) = i + 1 + j by omega]
      simp only [retryLoop, h0, if_neg hz]
      rw [ih (i + 1) (fun j => e (j + 1)) (by omega)
        (fun j hj => by rw [show i + 1 + j = i + (j + 1) by omega]; exact hfail (j + 1) (by omega)),
        hd]
      rw [show r' - 1 + 1 = r' + 1 - 1 by omega]

/-! ## Claim theorems -/

/-- C1, counterexample: on the raw record `{number:'1', name:'(X)'}` the
pipeline emits a channel, but with an *empty* name — the raw fields are
checked for emptiness before normalization, so a name that normalization
strips entirely is emitted empty, refuting the claim that every output
channel has a non-empty name. -/
theorem c1_counterexample :
    ¬ (∀ c ∈ Scraper0.processData [⟨some "1", some "(X)"⟩] [] (fun _ => false),
        c.number ≠ "" ∧ c.name ≠ "") := by decide

/-- C1, amended: for every raw batch, overrides map and exclusion
predicate, every channel emitted by the normalization pipeline has a
non-empty `number` (records with a missing or empty raw `number` or `name`
are dropped); the emitted `name`, however, may be empty when normalization
strips the entire raw name. -/
theorem c1_number_nonempty (data : List RawChannel)
    (overrides : List (String × String)) (exclude : Channel → Bool) :
    ∀ c ∈ Scraper0.processData data overrides exclude, c.number ≠ "" :=
  fun c hc => (mem_processData data overrides exclude c hc).1

theorem c1_witness : (Channel.mk "5" "ESPN").number ≠ "" :=
  c1_number_nonempty [⟨some "5", some "(HD) ESPN"⟩] [] (fun _ => false)
    ⟨"5", "ESPN"⟩ (by decide)

/-- C2, counterexample: with overrides `{'5': 'Channel5'}` the first pass
maps the raw name `'5'` to `Channel5`, but a second pass re-normalizes
`Channel5` to `CHANNEL5` (override values are not fixed points of
normalization), so running the pipeline twice is not a no-op. -/
theorem c2_counterexample :
    Scraper0.processData
        ((Scraper0.processData [⟨some "5", some "5"⟩] [("5", "Channel5")]
          (fun _ => false)).map Channel.toRaw) [("5", "Channel5")] (fun _ => false)
      ≠ Scraper0.processData [⟨some "5", some "5"⟩] [("5", "Channel5")]
          (fun _ => false) := by decide

/-- C2, amended: the pipeline is idempotent on batches whose first-pass
output consists of channels with non-empty names that the
normalize-then-override step leaves unchanged; in general a second
application can differ (see the counterexample). -/
theorem c2_idempotent_of_stable (data : List RawChannel)
    (overrides : List (String × String)) (exclude : Channel → Bool)
    (h : ∀ c ∈ Scraper0.processData data overrides exclude, c.name ≠ "" ∧
      jsOrString (overrides.lookup (Scraper0.normalizeChannelName c.name))
        (Scraper0.normalizeChannelName c.name) = c.name) :
    Scraper0.processData
        ((Scraper0.processData data overrides exclude).map Channel.toRaw)
        overrides exclude
      = Scraper0.processData data overrides exclude := by
  refine processData_map_toRaw overrides exclude _ (fun c hc => ?_)
  obtain ⟨h1, h2⟩ := mem_processData data overrides exclude c hc
  obtain ⟨h3, h4⟩ := h c hc
  exact ⟨h1, h3, h4, h2⟩

theorem c2_witness :
    Scraper0.processData
        ((Scraper0.processData [⟨some "7", some "ESPN"⟩] [] (fun _ => false)).map
          Channel.toRaw) [] (fun _ => false)
      = Scraper0.processData [⟨some "7", some "ESPN"⟩] [] (fun _ => false) :=
  c2_idempotent_of_stable [⟨some "7", some "ESPN"⟩] [] (fun _ => false) (by decide)

/-- C3, counterexample: two tasks of durations 10 and 5 in one wave of two:
`totalDuration` is the wall clock of the run (10), not the sum of the
per-task durations (15). -/
theorem c3_counterexample :
    ¬ ((IndexTs.scrapeAllProviders [⟨"A", 10, .ok []⟩, ⟨"B", 5, .ok []⟩] 2).totalDuration
      = (((IndexTs.scrapeAllProviders [⟨"A", 10, .ok []⟩, ⟨"B", 5, .ok []⟩] 2).results).map
          (fun r => r.duration)).sum) := by decide

/-- C3, amended: in `src/src/index.ts` `totalDuration` is the run's
wall-clock time — at most the sum of the per-task durations, with equality
when the concurrency bound is 1 — whereas the `part_001` revision's summary
computes exactly the sum of each task's own elapsed duration. -/
theorem c3_totalDuration (tasks : List TaskSpec) (k : Nat)
    (results : List ScraperResult) :
    (IndexTs.scrapeAllProviders tasks k).totalDuration
        ≤ (((IndexTs.scrapeAllProviders tasks k).results).map (fun r => r.duration)).sum
    ∧ (IndexTs.scrapeAllProviders tasks 1).totalDuration
        = (((IndexTs.scrapeAllProviders tasks 1).results).map (fun r => r.duration)).sum
    ∧ (Part001.summarize results).totalDuration = (results.map (fun r => r.duration)).sum := by
  have hdur : ∀ (k' : Nat),
      ((IndexTs.scrapeAllResults tasks k').map (fun r => r.duration)).sum
        = ((chunksOf k' tasks).map (fun b => (b.map (fun t => t.duration)).sum)).sum := by
    intro k'
    simp only [IndexTs.scrapeAllResults]
    rw [List.map_flatten, List.sum_flatten, List.map_map, List.map_map]
    congr 1
    refine List.map_congr_left (fun b _ => ?_)
    simp only [Function.comp_apply, List.map_map]
    congr 1
    exact List.map_congr_left (fun t _ => executeTask_duration t)
  refine ⟨?_, ?_, ?_⟩
  · show IndexTs.wallClock tasks k ≤ _
    rw [show (IndexTs.scrapeAllProviders tasks k).results = IndexTs.scrapeAllResults tasks k
      from rfl, hdur k]
    unfold IndexTs.wallClock
    refine List.sum_le_sum (fun b _ => ?_)
    exact foldr_max_le_sum (b.map (fun t => t.duration))
  · show IndexTs.wallClock tasks 1 = _
    rw [show (IndexTs.scrapeAllProviders tasks 1).results = IndexTs.scrapeAllResults tasks 1
      from rfl, hdur 1]
    unfold IndexTs.wallClock
    rw [chunksOf_one, List.map_map, List.map_map]
    congr 1
    refine List.map_congr_left (fun t _ => ?_)
    simp [IndexTs.waveWall, Nat.max_zero]
  · show results.foldl (fun s r => s + r.duration) 0 = _
    rw [foldl_add_eq_sum]
    exact Nat.zero_add _

/-- C4, counterexample: navigation fails on its first invocation and would
succeed on the next, the extractor always succeeds, and two attempts are
allowed; `runScraper` of `src/src/utils/scraper.ts` nevertheless surfaces
the navigation error as a task failure (navigation runs once, outside
`retry`), while the `part_000` revision — which really wraps the whole
setup-plus-extraction closure in `retry` — succeeds on its second
attempt. -/
theorem c4_counterexample :
    Scraper.runScraper (fun i => if i = 0 then Except.error "nav timeout" else Except.ok ())
        (fun _ => Except.ok []) 2 1 []
      = Except.error (RetryError.fnError "nav timeout")
    ∧ Scraper0.runScraper (fun i => if i = 0 then Except.error "nav timeout" else Except.ok ())
        (fun _ => Except.ok []) 2 1 [] (fun _ => false)
      = Except.ok [] := ⟨rfl, rfl⟩

/-- C4, amended: only the `part_000` revision wraps the whole
session-acquisition-plus-extraction step in the retry policy (a first
navigation failure followed by a successful attempt yields success when at
least two attempts are allowed); in the current `src/src/utils/scraper.ts`
page setup and navigation run once, outside `retry` — only the extractor
call is retried — so a navigation failure surfaces immediately as the task
failure. -/
theorem c4_retry_scope {ε : Type} (nav : Nat → Except ε Unit)
    (ext : Nat → Except ε (List RawChannel)) (retries delay : Nat)
    (overrides : List (String × String)) (exclude : Channel → Bool)
    (err : ε) (data : List RawChannel) :
    (nav 0 = .error err →
      Scraper.runScraper nav ext retries delay overrides = .error (.fnError err))
    ∧ (nav 0 = .error err → nav 1 = .ok () → ext 1 = .ok data → 2 ≤ retries →
      Scraper0.runScraper nav ext retries delay overrides exclude
        = .ok (Scraper0.processData data overrides exclude)) := by
  constructor
  · intro h0
    simp [Scraper.runScraper, h0]
  · intro h0 h1 he hret
    have hs := retryLoop_succeeds
      (fun i =>
        match nav i with
        | .error e => .error e
        | .ok _ =>
          match ext i with
          | .error e => .error e
          | .ok d => .ok (Scraper0.processData d overrides exclude))
      delay (Scraper0.processData data overrides exclude) 1 0 retries (fun _ => err)
      (by omega)
      (fun j hj => by
        have hj0 : j = 0 := by omega
        subst hj0
        simp [h0])
      (by simp [h1, he])
    unfold Scraper0.runScraper retry
    rw [hs]

theorem c4_witness :
    Scraper.runScraper (fun i => if i = 0 then Except.error "nav down" else Except.ok ())
        (fun _ => Except.ok []) 3 7 []
      = Except.error (RetryError.fnError "nav down")
    ∧ Scraper0.runScraper (fun i => if i = 0 then Except.error "nav down" else Except.ok ())
        (fun _ => Except.ok [⟨some "9", some "SKY"⟩]) 3 7 [] (fun _ => false)
      = Except.ok (Scraper0.processData [⟨some "9", some "SKY"⟩] [] (fun _ => false)) :=
  ⟨(c4_retry_scope (fun i => if i = 0 then Except.error "nav down" else Except.ok ())
      (fun _ => Except.ok []) 3 7 [] (fun _ => false) "nav down" []).1 rfl,
   (c4_retry_scope (fun i => if i = 0 then Except.error "nav down" else Except.ok ())
      (fun _ => Except.ok [⟨some "9", some "SKY"⟩]) 3 7 [] (fun _ => false) "nav down"
      [⟨some "9", some "SKY"⟩]).2 rfl rfl rfl (by decide)⟩

/-- C5: `retry` returns the successful value when the function fails
`m < maxAttempts` times and then succeeds (after `m + 1` invocations,
having waited `delay * 2^i` before retry `i`), and re-throws the last
attempt's error unchanged when all `maxAttempts ≥ 1` attempts fail (the
`fnError` constructor is only the embedding's injection of the untouched
error value). -/
theorem c5_retry_success_and_exhaustion {ε α : Type} (fn : Nat → Except ε α)
    (maxAttempts delay m : Nat) (v : α) (e : Nat → ε) :
    ((∀ j, j < m → fn j = .error (e j)) → fn m = .ok v → m < maxAttempts →
      retry fn maxAttempts delay =
        ⟨.ok v, m + 1, (List.range m).map (fun i => delay * 2 ^ i)⟩)
    ∧ ((∀ j, j < maxAttempts → fn j = .error (e j)) → 1 ≤ maxAttempts →
      retry fn maxAttempts delay =
        ⟨.error (.fnError (e (maxAttempts - 1))), maxAttempts,
          (List.range (maxAttempts - 1)).map (fun i => delay * 2 ^ i)⟩) := by
  constructor
  · intro hfail hsucc hm
    have hs := retryLoop_succeeds fn delay v m 0 maxAttempts e hm
      (fun j hj => by rw [Nat.zero_add]; exact hfail j hj)
      (by rw [Nat.zero_add]; exact hsucc)
    unfold retry
    rw [hs]
    simp only [Nat.zero_add]
  · intro hfail h1
    have hs := retryLoop_exhausts fn delay maxAttempts 0 e h1
      (fun j hj => by rw [Nat.zero_add]; exact hfail j hj)
    unfold retry
    rw [hs]
    simp only [Nat.zero_add]

theorem c5_witness :
    retry (fun i => if i = 0 then Except.error "boom" else Except.ok 42) 3 100
      = ⟨Except.ok 42, 2, [100]⟩
    ∧ retry (fun _ => (Except.error "boom" : Except String Nat)) 2 100
      = ⟨Except.error (RetryError.fnError "boom"), 2, [100]⟩ := by
  constructor
  · have h := (c5_retry_success_and_exhaustion
        (fun i => if i = 0 then Except.error "boom" else Except.ok 42) 3 100 1 42
        (fun _ => "boom")).1
      (fun j hj => by
        have hj0 : j = 0 := by omega
        subst hj0
        rfl)
      rfl (by decide)
    simpa using h
  · have h := (c5_retry_success_and_exhaustion
        (fun _ => (Except.error "boom" : Except String Nat)) 2 100 0 0
        (fun _ => "boom")).2
      (fun j hj => rfl) (by decide)
    simpa using h

/-- C6: for every task list, every concurrency bound `k ≥ 1`, and every
completion order of each wave's results, the scheduler's result list
matches submission order: position `i` holds the outcome of task `i`. -/
theorem c6_order_preservation (tasks : List TaskSpec) (k : Nat)
    (sched : List TaskSpec → List (Nat × ScraperResult)) (_hk : 1 ≤ k)
    (hsched : ∀ b, (sched b).Perm (IndexTs.enumF 0 (b.map executeTask))) :
    IndexTs.scrapeAllWith k sched tasks = tasks.map executeTask := by
  unfold IndexTs.scrapeAllWith
  have hwave : ∀ b, IndexTs.promiseAll (sched b) = b.map executeTask :=
    fun b => promiseAll_perm (b.map executeTask) (sched b) (hsched b)
  rw [List.map_congr_left (fun b _ => hwave b), ← List.map_flatten, chunksOf_flatten]

theorem c6_witness :
    IndexTs.scrapeAllWith 2 (fun b => (IndexTs.enumF 0 (b.map executeTask)).reverse)
        [⟨"A", 10, .ok []⟩, ⟨"B", 5, .error "x"⟩, ⟨"C", 7, .ok []⟩]
      = [⟨"A", 10, .ok []⟩, ⟨"B", 5, .error "x"⟩, ⟨"C", 7, .ok []⟩].map executeTask :=
  c6_order_preservation [⟨"A", 10, .ok []⟩, ⟨"B", 5, .error "x"⟩, ⟨"C", 7, .ok []⟩] 2
    (fun b => (IndexTs.enumF 0 (b.map executeTask)).reverse) (by decide)
    (fun b => List.reverse_perm (IndexTs.enumF 0 (b.map executeTask)))

/-- C7: Scenario B of the specification, on the current
`src/src/utils/scraper.ts` pipeline: `(HD) ESPN` loses its parenthetical,
the record with the empty number is dropped, and `nick` normalizes to
`NICK` and is overridden to `NICKELODEON`, in extraction order. -/
theorem c7_scenarioB :
    Scraper.processData
        [⟨some "5", some "(HD) ESPN"⟩, ⟨some "", some "Bad"⟩, ⟨some "6", some "nick"⟩]
        [("NICK", "NICKELODEON")]
      = [⟨"5", "ESPN"⟩, ⟨"6", "NICKELODEON"⟩] := by decide

/-- C8: `totalChannels` equals the sum of the channel counts of the
succeeded tasks only — failed tasks carry no `channelCount`, so the
`(r.channelCount || 0)` fold over all results contributes nothing for
them. -/
theorem c8_totalChannels (tasks : List TaskSpec) (k : Nat) :
    (IndexTs.scrapeAllProviders tasks k).totalChannels =
      (((IndexTs.scrapeAllProviders tasks k).results.filter (fun r => r.success)).map
        (fun r => r.channelCount.getD 0)).sum := by
  have h1 : (IndexTs.scrapeAllProviders tasks k).totalChannels
      = ((IndexTs.scrapeAllResults tasks k).map (fun r => r.channelCount.getD 0)).sum := by
    show IndexTs.totalChannelsOf _ = _
    unfold IndexTs.totalChannelsOf
    rw [foldl_add_eq_sum]
    exact Nat.zero_add _
  rw [h1, sum_getD_filter_success (IndexTs.scrapeAllResults tasks k)
    (fun r hr hs => by
      obtain ⟨t, rfl⟩ := mem_scrapeAllResults tasks k r hr
      exact executeTask_failed_channelCount t hs)]
  rfl

/-- C9: the exclusion predicate is applied after override substitution to
the final `{number, name}` pair — excluding is exactly post-filtering the
trivially-filtered pipeline output — and on the concrete batch with a
predicate dropping numbers containing `-`, only `{50, Y}` survives. -/
theorem c9_exclusion (data : List RawChannel) (overrides : List (String × String))
    (exclude : Channel → Bool) :
    Scraper0.processData data overrides exclude
      = (Scraper0.processData data overrides (fun _ => false)).filter
          (fun c => !(exclude c))
    ∧ Scraper0.processData [⟨some "100-101", some "X"⟩, ⟨some "50", some "Y"⟩] []
        (fun c => c.number.toList.contains '-') = [⟨"50", "Y"⟩] := by
  constructor
  · induction data with
    | nil => rfl
    | cons item rest ih =>
      simp only [Scraper0.processData, List.filterMap_cons] at ih ⊢
      rw [processItem_exclude overrides exclude item]
      cases h : Scraper0.processItem overrides (fun _ => false) item with
      | none => simpa using ih
      | some ch =>
        by_cases hexc : exclude ch = true
        · simp [hexc, ih]
        · simp [hexc, ih]
  · decide

/-- C10: calling `retry` with a non-positive attempt count never invokes
the wrapped function (zero invocations) and throws the freshly constructed
generic `Error('Retry failed')` — not an error produced by `fn`. -/
theorem c10_retry_zero {ε α : Type} (fn : Nat → Except ε α) (retries : Int)
    (delay : Nat) (h : retries ≤ 0) :
    retryJS fn retries delay = ⟨.error .retryFailed, 0, []⟩ := by
  unfold retryJS retry
  rw [Int.toNat_of_nonpos h]
  rfl

theorem c10_witness :
    retryJS (fun _ => (Except.error "boom" : Except String Nat)) (-1) 1000
      = ⟨Except.error RetryError.retryFailed, 0, []⟩ :=
  c10_retry_zero (fun _ => (Except.error "boom" : Except String Nat)) (-1) 1000 (by decide)

end ChannelScrape
